import Mathlib

/-!
Formal model of the cash-advance backend (Express + Mongoose).

The repository tracks employee cash-advance requests through a role-gated
approval lifecycle.  It contains two overlapping schema variants for the
same entity: `models/Advance.js` (statuses `pending`, `manager_approved`,
`finance_approved`, `disbursed`, `rejected`, `retired`) and
`models/CashAdvance.js` (statuses `pending`, `approved`, `rejected`,
`retired`).  Following the specification, the two variants are modelled as
one canonical entity whose status enumeration is the union of both enums;
each operation below is a direct translation of the corresponding
JavaScript source and only compares the status values its own source file
mentions, so the extra members simply fall through to the `else` branches
exactly as an unknown string would in the JavaScript.

Strings that are only carried around (purpose, comments, references) are
modelled as `String`; the request number, whose generation relies on
JavaScript string ordering, slicing and `parseInt`, is modelled as its
list of character code points (`List Nat`), matching byte-wise BSON/JS
string comparison on ASCII data.
-/

/-- User roles: `userSchema.role` enum `["staff", "manager", "finance", "admin"]`. -/
inductive Role where
  | staff
  | manager
  | finance
  | admin
deriving DecidableEq

/-- Canonical status enumeration: the union of `advanceSchema.status`
(`pending`, `manager_approved`, `finance_approved`, `disbursed`,
`rejected`, `retired`) and `cashAdvanceSchema.status` (`pending`,
`approved`, `rejected`, `retired`). -/
inductive Status where
  | pending
  | manager_approved
  | finance_approved
  | disbursed
  | approved
  | rejected
  | retired
deriving DecidableEq

/-- An approval decision: the `status` field of an approval event,
enum `["approved", "rejected"]`. -/
inductive Decision where
  | approved
  | rejected
deriving DecidableEq

/-- Priority enum `["low", "medium", "high", "urgent"]`. -/
inductive Priority where
  | low
  | medium
  | high
  | urgent
deriving DecidableEq

/-- Disbursement method enum `["cash", "bank_transfer", "check"]`. -/
inductive Method where
  | cash
  | bank_transfer
  | check
deriving DecidableEq

/-- One entry of `advanceSchema.approvals`: approver reference, role,
decision (schema field name `status`), comment and date. -/
structure ApprovalEvent where
  approver : Nat
  role : Role
  status : Decision
  comment : String
  date : Nat
deriving DecidableEq

/-- The `advanceSchema.disbursement` subdocument. -/
structure Disbursement where
  disbursedBy : Nat
  disbursedDate : Nat
  disbursedAmount : Rat
  method : Method
  reference : String
deriving DecidableEq

/-- The `cashAdvanceSchema.retirement` subdocument
(`retirementDate`, `totalExpenses`, `expenseBreakdown`, `retiredAt`). -/
structure Retirement where
  retirementDate : Nat
  totalExpenses : Rat
  expenseBreakdown : String
  retiredAt : Nat
deriving DecidableEq

/-- The canonical advance document.  Field `requester` is named `user` in
the `CashAdvance` variant; `requestNumber` is kept as the list of
character code points of the JavaScript string (empty list = the unset
field, which is falsy in JavaScript). -/
structure Advance where
  requestNumber : List Nat
  requester : Nat
  amount : Rat
  purpose : String
  description : String
  requestDate : Nat
  expectedReturnDate : Nat
  status : Status
  approvals : List ApprovalEvent
  disbursement : Option Disbursement
  retirement : Option Retirement
  priority : Priority
  isActive : Bool
  createdAt : Nat
deriving DecidableEq

/-- `advanceSchema.methods.canBeApprovedBy` (models/Advance.js):

    if (this.status === "rejected" || this.status === "retired") return false;
    if (userRole === "manager" && this.status === "pending") return true;
    if (userRole === "finance" && this.status === "manager_approved") return true;
    return false;
-/
def Advance.canBeApprovedBy (a : Advance) (userRole : Role) : Bool :=
  if a.status = .rejected ∨ a.status = .retired then false
  else if userRole = .manager ∧ a.status = .pending then true
  else if userRole = .finance ∧ a.status = .manager_approved then true
  else false

/-- `advanceSchema.methods.addApproval` (models/Advance.js): pushes the
approval event onto `approvals`, then updates the main status:
`rejected` decision forces status `rejected`; a manager `approved` sets
`manager_approved`; a finance `approved` sets `finance_approved`; any
other combination leaves the status untouched. -/
def Advance.addApproval (a : Advance) (approverId : Nat) (role : Role)
    (status : Decision) (comment : String) (now : Nat) : Advance :=
  let a' := { a with
    approvals := a.approvals ++ [⟨approverId, role, status, comment, now⟩] }
  if status = .rejected then { a' with status := .rejected }
  else if role = .manager ∧ status = .approved then
    { a' with status := .manager_approved }
  else if role = .finance ∧ status = .approved then
    { a' with status := .finance_approved }
  else a'

/-- The status that `addApproval` derives from a single approval event,
as a function of the previous status and that event alone. -/
def statusAfterEvent (s : Status) (e : ApprovalEvent) : Status :=
  if e.status = .rejected then .rejected
  else if e.role = .manager ∧ e.status = .approved then .manager_approved
  else if e.role = .finance ∧ e.status = .approved then .finance_approved
  else s

/-- Error responses produced by route handlers, tagged with the HTTP
class the route uses (400 / 403 / 404 / 500) and the response message. -/
inductive ApiError where
  | badRequest (msg : String)
  | forbidden (msg : String)
  | notFound (msg : String)
  | serverError (msg : String)
deriving DecidableEq

/-- The document as persisted after a request: an error response leaves
the stored advance untouched (the handlers only `save()` on success). -/
def persistedAfter (a : Advance) (r : Except ApiError Advance) : Advance :=
  match r with
  | .ok a' => a'
  | .error _ => a

/-- `canApprove` middleware (middleware/auth.js):
`authorize("manager", "finance", "admin")`. -/
def canApprove (role : Role) : Bool :=
  role = .manager ∨ role = .finance ∨ role = .admin

/-- Rendering of a `Decision` back to its schema string, used in the
interpolated error message of the approve route. -/
def Decision.str : Decision → String
  | .approved => "approved"
  | .rejected => "rejected"

/-- `PUT /api/advances/:id/approve` (routes/advances.js, `Advance`
variant), after authentication and the `canApprove` role gate.  The body
`status` is already known to be `"approved"` or `"rejected"` (the route
rejects anything else before reaching this logic, which the `Decision`
type reflects).  The handler checks `canBeApprovedBy` and then calls
`addApproval` and saves. -/
def approveHandler (userId : Nat) (userRole : Role) (decision : Decision)
    (comment : String) (now : Nat) (a : Advance) : Except ApiError Advance :=
  if ¬ canApprove userRole then
    .error (.forbidden "Access denied. Insufficient permissions.")
  else if ¬ a.canBeApprovedBy userRole then
    .error (.badRequest
      ("This request cannot be " ++ decision.str ++ " at this stage"))
  else
    .ok (a.addApproval userId userRole decision comment now)

/-- `disbursedAmount || advance.amount`: JavaScript `||` falls back on
both an absent field and the falsy number `0`. -/
def orAmount (x : Option Rat) (d : Rat) : Rat :=
  match x with
  | none => d
  | some v => if v = 0 then d else v

/-- `PUT /api/advances/:id/disburse` (routes/advances.js, `Advance`
variant): gated by `authorize("finance", "admin")`; requires status
`finance_approved` exactly, then writes the disbursement record
(`method || "cash"`), sets status `disbursed` and saves. -/
def disburseHandler (userId : Nat) (userRole : Role)
    (disbursedAmount : Option Rat) (method : Option Method)
    (reference : String) (now : Nat) (a : Advance) :
    Except ApiError Advance :=
  if ¬ (userRole = .finance ∨ userRole = .admin) then
    .error (.forbidden "Access denied. Insufficient permissions.")
  else if a.status ≠ .finance_approved then
    .error (.badRequest "Advance must be finance approved before disbursement")
  else
    .ok { a with
      disbursement := some
        ⟨userId, now, orAmount disbursedAmount a.amount,
          method.getD .cash, reference⟩,
      status := .disbursed }

/-- `PUT /api/advances/:id/retire` (routes/advances.js, `CashAdvance`
variant): `findOne({_id, user: req.user.id})` scopes the lookup to the
requester (modelled as the ownership test producing the route's 404);
then requires status `"approved"`, with a second, unreachable check for
`"retired"` kept verbatim from the source; on success writes the
retirement record and sets status `retired`. -/
def retireHandler (userId : Nat) (retirementDate : Nat)
    (totalExpenses : Rat) (expenseBreakdown : String) (now : Nat)
    (a : Advance) : Except ApiError Advance :=
  if ¬ a.requester = userId then
    .error (.notFound "Cash advance request not found")
  else if a.status ≠ .approved then
    .error (.badRequest "Only approved advances can be retired")
  else if a.status = .retired then
    .error (.badRequest "Advance has already been retired")
  else
    .ok { a with
      status := .retired,
      retirement := some ⟨retirementDate, totalExpenses, expenseBreakdown, now⟩ }

/-- `POST /api/advances` handler body (both route variants): builds the
document from the request body with `priority: priority || "medium"`;
the schema defaults fill in status `pending`, `isActive: true`, an empty
approvals array and `requestDate: Date.now`. -/
def newAdvance (userId : Nat) (amount : Rat) (purpose description : String)
    (expectedReturnDate : Nat) (priority : Option Priority) (now : Nat) :
    Advance :=
  { requestNumber := []
    requester := userId
    amount := amount
    purpose := purpose
    description := description
    requestDate := now
    expectedReturnDate := expectedReturnDate
    status := .pending
    approvals := []
    disbursement := none
    retirement := none
    priority := priority.getD .medium
    isActive := true
    createdAt := now }

/-- The spec's example scenario run through the modelled endpoints:
staff user 1 creates an advance of 500, manager 2 approves, finance 3
approves and disburses by bank transfer, then user 1 attempts to retire
with totalExpenses 480. -/
def lifecycleRun : Except ApiError Advance := do
  let a0 := newAdvance 1 500 "travel reimbursement" "" 7 none 0
  let a1 ← approveHandler 2 .manager .approved "" 1 a0
  let a2 ← approveHandler 3 .finance .approved "" 2 a1
  let a3 ← disburseHandler 3 .finance none (some .bank_transfer) "" 3 a2
  retireHandler 1 4 480 "" 5 a3

/-- JavaScript / BSON string comparison (`sort({requestNumber: -1})`)
restricted to code-point lists: lexicographic with a proper prefix
ordering below its extensions. -/
def lexLt : List Nat → List Nat → Bool
  | _, [] => false
  | [], _ :: _ => true
  | a :: as, b :: bs =>
    if a < b then true else if b < a then false else lexLt as bs

/-- `String(n).padStart(4, "0")`, as the four decimal digit code points;
faithful to the JavaScript for `n ≤ 9999`. -/
def pad4 (n : Nat) : List Nat :=
  [48 + n / 1000 % 10, 48 + n / 100 % 10, 48 + n / 10 % 10, 48 + n % 10]

/-- `String(new Date().getMonth() + 1).padStart(2, "0")`: two decimal
digit code points; faithful for `n ≤ 99`. -/
def pad2 (n : Nat) : List Nat :=
  [48 + n / 10 % 10, 48 + n % 10]

/-- The month-scoped prefix `` `ADV${year}${month}` `` as code points
(`65 68 86` = `"ADV"`); the year rendered with its four decimal digits
(faithful for four-digit years). -/
def advTag (year month : Nat) : List Nat :=
  [65, 68, 86] ++ pad4 year ++ pad2 month

/-- `requestNumber.slice(-4)`: the last four characters. -/
def sliceLast4 (l : List Nat) : List Nat :=
  l.drop (l.length - 4)

/-- `parseInt` on a string of decimal digit code points. -/
def parseIntDigits (l : List Nat) : Nat :=
  l.foldl (fun acc c => acc * 10 + (c - 48)) 0

/-- One step of taking the later (string-greater) of two candidate
documents, the accumulator form of `findOne().sort({requestNumber: -1})`. -/
def pickLater (acc : Option Advance) (a : Advance) : Option Advance :=
  match acc with
  | none => some a
  | some b =>
    if lexLt b.requestNumber a.requestNumber then some a else some b

/-- `this.constructor.findOne({requestNumber: ^prefix}).sort({requestNumber: -1})`:
the document whose request number is greatest in string order among those
starting with the month prefix. -/
def findLastAdvance (p : List Nat) (store : List Advance) : Option Advance :=
  (store.filter (fun a => p.isPrefixOf a.requestNumber)).foldl pickLater none

/-- `advanceSchema.pre("save")` (models/Advance.js): when the request
number is unset, look up the last request number for this month, parse
its final four digits, increment (starting from 1 when the month is
empty) and store `` `ADV${year}${month}${String(sequence).padStart(4, "0")}` ``. -/
def preSave (year month : Nat) (store : List Advance) (a : Advance) :
    Advance :=
  if a.requestNumber ≠ [] then a
  else
    let sequence :=
      match findLastAdvance (advTag year month) store with
      | none => 1
      | some last => parseIntDigits (sliceLast4 last.requestNumber) + 1
    { a with requestNumber := advTag year month ++ pad4 sequence }

/-- `validateAdvanceRequest` (middleware/validation.js): Joi schema
`amount` positive and at most 1000000, `purpose` length 10–500,
`description` length at most 1000, `expectedReturnDate` strictly after
now. -/
def validAdvanceRequest (amount : Rat) (purpose description : String)
    (expectedReturnDate now : Nat) : Bool :=
  decide (0 < amount) && decide (amount ≤ 1000000) &&
  decide (10 ≤ purpose.length) && decide (purpose.length ≤ 500) &&
  decide (description.length ≤ 1000) && decide (now < expectedReturnDate)

/-- Failure of a `save()` call at the store level. -/
inductive SaveError where
  | duplicateKey
deriving DecidableEq

/-- Insertion against the collection state at write time: the unique
index `advanceSchema.index({requestNumber: 1}, {unique: true})` rejects
a document whose request number is already present. -/
def saveDoc (storeAtWrite : List Advance) (a : Advance) :
    Except SaveError Advance :=
  if storeAtWrite.any (fun b => b.requestNumber == a.requestNumber) then
    .error .duplicateKey
  else .ok a

/-- `POST /api/advances`: builds the document, runs the pre-save hook
against the snapshot read inside `save()`, and performs exactly one
insert against the write-time collection state; every error — a
duplicate-key conflict from a concurrent creation included — lands in
the route's single `catch` block and is returned as the generic 500
response.  There is no retry loop anywhere in the route or the model. -/
def createAdvanceHandler (year month : Nat)
    (storeAtRead storeAtWrite : List Advance) (uid : Nat) (amount : Rat)
    (purpose description : String) (erd : Nat) (prio : Option Priority)
    (now : Nat) : Except ApiError Advance :=
  match saveDoc storeAtWrite
    (preSave year month storeAtRead
      (newAdvance uid amount purpose description erd prio now)) with
  | .ok d => .ok d
  | .error _ => .error (.serverError "Error creating cash advance request")

/-- Rendering a code-point list back to a `String` (for handing the
request number to the search regex). -/
def strOfCodes (l : List Nat) : String :=
  String.mk (l.map Char.ofNat)

/-- The user document (models/User.js), password omitted. -/
structure User where
  id : Nat
  firstName : String
  lastName : String
  email : String
  employeeId : String
  department : String
  position : String
  role : Role
  isActive : Bool
deriving DecidableEq

/-- Query parameters of `GET /api/advances` after `parseInt` of `page`
and `limit`.  A `status`/`priority` of `none` covers both an absent
parameter and the literal `"all"`, which the route treats identically
(`if (status && status !== "all")`). -/
structure AdvListQuery where
  page : Nat
  limit : Nat
  status : Option Status
  priority : Option Priority
  search : Option String
  startDate : Option Nat
  endDate : Option Nat

/-- The Mongo filter document assembled by `GET /api/advances`:
`{isActive: true}`, plus `requester` for staff actors, plus the optional
status / priority / requestDate bounds. -/
structure AdvanceFilter where
  isActive : Bool
  requester : Option Nat
  status : Option Status
  priority : Option Priority
  startDate : Option Nat
  endDate : Option Nat

/-- Filter construction of `GET /api/advances` lines 25–47: staff actors
get `filter.requester = req.user._id`; every caller-supplied filter is
added as a further key of the same document (an intersection). -/
def buildFilter (u : User) (q : AdvListQuery) : AdvanceFilter :=
  { isActive := true
    requester := if u.role = .staff then some u.id else none
    status := q.status
    priority := q.priority
    startDate := q.startDate
    endDate := q.endDate }

/-- Satisfaction of the filter document by an advance: Mongo matches a
document when every key of the filter matches (conjunction). -/
def matchesFilter (f : AdvanceFilter) (a : Advance) : Bool :=
  (a.isActive == f.isActive) &&
  (match f.requester with | none => true | some r => a.requester == r) &&
  (match f.status with | none => true | some s => a.status == s) &&
  (match f.priority with | none => true | some p => a.priority == p) &&
  (match f.startDate with
    | none => true | some d => decide (d ≤ a.requestDate)) &&
  (match f.endDate with
    | none => true | some d => decide (a.requestDate ≤ d))

/-- The `$or` block of the search aggregation (lines 75–81): a
case-insensitive regex test — abstracted as the external matcher
`rmatch` — over the request number, the purpose, and the `$lookup`-ed
requester's first name, last name and employee id. -/
def matchesSearchOr (users : List User) (rmatch : String → String → Bool)
    (s : String) (a : Advance) : Bool :=
  rmatch s (strOfCodes a.requestNumber) || rmatch s a.purpose ||
  ((users.filter (fun u => u.id == a.requester)).any
    (fun u => rmatch s u.firstName || rmatch s u.lastName ||
      rmatch s u.employeeId))

/-- `.sort({requestDate: -1})`: most recent request first. -/
def byRequestDateDesc (a b : Advance) : Bool :=
  decide (b.requestDate ≤ a.requestDate)

/-- `.skip((page - 1) * limit).limit(limit)`: the offset-based page
slice shared by every paginated route. -/
def pageSlice {α : Type} (limit page : Nat) (l : List α) : List α :=
  (l.drop ((page - 1) * limit)).take limit

/-- `GET /api/advances` (routes/advances.js, `Advance` variant): build
the role-scoped filter, apply the optional search `$or` as a further
`$match` conjunct, sort by request date descending, and slice the
requested page. -/
def listAdvances (u : User) (q : AdvListQuery) (store : List Advance)
    (users : List User) (rmatch : String → String → Bool) : List Advance :=
  match q.search with
  | some s =>
    pageSlice q.limit q.page
      ((store.filter (fun a => matchesFilter (buildFilter u q) a &&
        matchesSearchOr users rmatch s a)).mergeSort byRequestDateDesc)
  | none =>
    pageSlice q.limit q.page
      ((store.filter (fun a =>
        matchesFilter (buildFilter u q) a)).mergeSort byRequestDateDesc)

/-- `GET /api/advances/my-requests` (routes/advances.js, `CashAdvance`
variant): the filter is always `{user: req.user.id}` plus the optional
status, sorted by the default `-createdAt`, then the page slice. -/
def myRequests (userId : Nat) (status : Option Status) (page limit : Nat)
    (store : List Advance) : List Advance :=
  pageSlice limit page
    ((store.filter (fun a => a.requester == userId &&
      (match status with | none => true | some s => a.status == s))).mergeSort
      (fun a b => decide (b.createdAt ≤ a.createdAt)))

/-- `Math.ceil(total / limit)` on naturals (for `limit ≥ 1`); the
equality with the rational ceiling is proved in `ceilDiv_eq_ceil`. -/
def ceilDiv (total limit : Nat) : Nat :=
  (total + limit - 1) / limit

/-- The pagination envelope every list route returns: current page,
`totalPages = Math.ceil(total / limit)`, the total record count, and
`hasNext = page < totalPages`, `hasPrev = page > 1`. -/
structure Pagination where
  currentPage : Nat
  totalPages : Nat
  totalCount : Nat
  hasNext : Bool
  hasPrev : Bool
deriving DecidableEq

/-- Construction of the pagination envelope (routes/advances.js lines
96–100 and 114–119, routes/users.js lines 66–72). -/
def mkPagination (page limit total : Nat) : Pagination :=
  { currentPage := page
    totalPages := ceilDiv total limit
    totalCount := total
    hasNext := decide (page < ceilDiv total limit)
    hasPrev := decide (1 < page) }

/-- **C1.** `canBeApprovedBy(role)` returns `true` exactly when the
advance is `pending` and the role is `manager`, or the advance is
`manager_approved` and the role is `finance`; every other combination of
status (including `finance_approved`, `disbursed`, `rejected`, `retired`)
and role (including `admin` and `staff`) yields `false`. -/
theorem C1_canBeApprovedBy_iff (a : Advance) (r : Role) :
    a.canBeApprovedBy r = true ↔
      (a.status = .pending ∧ r = .manager) ∨
      (a.status = .manager_approved ∧ r = .finance) := by
  cases h : a.status <;> cases r <;>
    simp [Advance.canBeApprovedBy, h]

/-- **C3.** `addApproval` appends the approval event to the history
(leaving every existing event in place), the appended event is the most
recent one, and the new status is derived from that event alone: a
`rejected` decision yields status `rejected` regardless of role, a
manager `approved` yields `manager_approved`, and a finance `approved`
yields `finance_approved`. -/
theorem C3_addApproval_appends_then_derives (a : Advance) (approverId : Nat)
    (role : Role) (decision : Decision) (comment : String) (now : Nat) :
    let e : ApprovalEvent := ⟨approverId, role, decision, comment, now⟩
    let a' := a.addApproval approverId role decision comment now
    a'.approvals = a.approvals ++ [e] ∧
    a'.approvals.getLast? = some e ∧
    a'.status = statusAfterEvent a.status e ∧
    (decision = .rejected → a'.status = .rejected) ∧
    (role = .manager → decision = .approved → a'.status = .manager_approved) ∧
    (role = .finance → decision = .approved → a'.status = .finance_approved) := by
  cases decision <;> cases role <;>
    simp [Advance.addApproval, statusAfterEvent, List.getLast?_concat]

/-- Witness for C3 at a concrete advance and a manager approval. -/
theorem C3_addApproval_witness :
    let a : Advance :=
      ⟨[], 1, 500, "travel reimbursement", "", 0, 7, .pending, [], none,
        none, .medium, true, 0⟩
    let e : ApprovalEvent := ⟨2, .manager, .approved, "", 3⟩
    let a' := a.addApproval 2 .manager .approved "" 3
    a'.approvals = a.approvals ++ [e] ∧
    a'.approvals.getLast? = some e ∧
    a'.status = statusAfterEvent a.status e ∧
    (Decision.approved = .rejected → a'.status = .rejected) ∧
    (Role.manager = .manager → Decision.approved = .approved →
      a'.status = .manager_approved) ∧
    (Role.manager = .finance → Decision.approved = .approved →
      a'.status = .finance_approved) :=
  C3_addApproval_appends_then_derives _ 2 .manager .approved "" 3

/-- **C10.** The approve route's role gate (`canApprove`) admits the
`admin` role, but `canBeApprovedBy` never returns `true` for `admin`, so
an admin approval or rejection through the generic approve endpoint
always fails with the cannot-be-approved-at-this-stage error and leaves
the advance unchanged, whatever its status. -/
theorem C10_admin_approve_always_fails (a : Advance) (uid : Nat)
    (decision : Decision) (comment : String) (now : Nat) :
    canApprove .admin = true ∧
    approveHandler uid .admin decision comment now a =
      .error (.badRequest
        ("This request cannot be " ++ decision.str ++ " at this stage")) ∧
    persistedAfter a (approveHandler uid .admin decision comment now a) = a := by
  have hguard : a.canBeApprovedBy .admin = false := by
    cases h : a.status <;> simp [Advance.canBeApprovedBy, h]
  refine ⟨by decide, ?_, ?_⟩ <;>
    simp [approveHandler, canApprove, hguard, persistedAfter]

/-- **C6.** Disbursement succeeds exactly from `finance_approved`,
setting status `disbursed` and recording the disbursement; retirement
(by the owning requester) succeeds exactly from the `approved` stage,
setting status `retired` and recording the retirement; from any other
status either operation returns the route's domain error and the stored
advance is unchanged. -/
theorem C6_disburse_retire_guards (a : Advance) (uid : Nat) (role : Role)
    (damt : Option Rat) (meth : Option Method) (ref : String) (now : Nat)
    (uid2 : Nat) (rd : Nat) (te : Rat) (eb : String) (now2 : Nat) :
    (role = .finance ∨ role = .admin →
      (a.status = .finance_approved →
        disburseHandler uid role damt meth ref now a =
          .ok { a with
            disbursement := some
              ⟨uid, now, orAmount damt a.amount, meth.getD .cash, ref⟩,
            status := .disbursed }) ∧
      (a.status ≠ .finance_approved →
        disburseHandler uid role damt meth ref now a =
          .error (.badRequest
            "Advance must be finance approved before disbursement") ∧
        persistedAfter a (disburseHandler uid role damt meth ref now a) = a)) ∧
    (a.requester = uid2 →
      (a.status = .approved →
        retireHandler uid2 rd te eb now2 a =
          .ok { a with
            status := .retired,
            retirement := some ⟨rd, te, eb, now2⟩ }) ∧
      (a.status ≠ .approved →
        retireHandler uid2 rd te eb now2 a =
          .error (.badRequest "Only approved advances can be retired") ∧
        persistedAfter a (retireHandler uid2 rd te eb now2 a) = a)) := by
  constructor
  · intro hrole
    constructor
    · intro hst
      simp [disburseHandler, hrole, hst]
    · intro hst
      simp [disburseHandler, hrole, hst, persistedAfter]
  · intro hown
    constructor
    · intro hst
      simp [retireHandler, hown, hst]
    · intro hst
      simp [retireHandler, hown, hst, persistedAfter]

/-- Witness for C6: a finance user disburses a finance-approved advance. -/
theorem C6_disburse_retire_witness :
    let a : Advance :=
      ⟨[], 1, 500, "travel reimbursement", "", 0, 7, .finance_approved, [],
        none, none, .medium, true, 0⟩
    (Role.finance = .finance ∨ Role.finance = .admin →
      (a.status = .finance_approved →
        disburseHandler 3 .finance none (some .bank_transfer) "" 4 a =
          .ok { a with
            disbursement := some
              ⟨3, 4, orAmount none a.amount, (some Method.bank_transfer).getD .cash, ""⟩,
            status := .disbursed }) ∧
      (a.status ≠ .finance_approved →
        disburseHandler 3 .finance none (some .bank_transfer) "" 4 a =
          .error (.badRequest
            "Advance must be finance approved before disbursement") ∧
        persistedAfter a (disburseHandler 3 .finance none (some .bank_transfer) "" 4 a) = a)) ∧
    (a.requester = 1 →
      (a.status = .approved →
        retireHandler 1 5 480 "" 6 a =
          .ok { a with
            status := .retired,
            retirement := some ⟨5, 480, "", 6⟩ }) ∧
      (a.status ≠ .approved →
        retireHandler 1 5 480 "" 6 a =
          .error (.badRequest "Only approved advances can be retired") ∧
        persistedAfter a (retireHandler 1 5 480 "" 6 a) = a)) :=
  C6_disburse_retire_guards _ 3 .finance none (some .bank_transfer) "" 4 1 5 480 "" 6

/-- **C2.** Once an advance is `rejected` or `retired`, the approval
guard is `false` for every role, and every approve, disburse or retire
attempt fails, leaving the stored advance — in particular its status —
unchanged: terminal states are absorbing. -/
theorem C2_terminal_states_absorbing (a : Advance)
    (hterm : a.status = .rejected ∨ a.status = .retired)
    (uid : Nat) (role : Role) (dec : Decision) (c : String) (now : Nat)
    (damt : Option Rat) (meth : Option Method) (ref : String)
    (rd : Nat) (te : Rat) (eb : String) :
    a.canBeApprovedBy role = false ∧
    (∀ x, approveHandler uid role dec c now a ≠ .ok x) ∧
    persistedAfter a (approveHandler uid role dec c now a) = a ∧
    (∀ x, disburseHandler uid role damt meth ref now a ≠ .ok x) ∧
    persistedAfter a (disburseHandler uid role damt meth ref now a) = a ∧
    (∀ x, retireHandler uid rd te eb now a ≠ .ok x) ∧
    persistedAfter a (retireHandler uid rd te eb now a) = a := by
  have hguard : a.canBeApprovedBy role = false := by
    rcases hterm with h | h <;> simp [Advance.canBeApprovedBy, h]
  have hst1 : a.status ≠ .finance_approved := by
    rcases hterm with h | h <;> simp [h]
  have hst2 : a.status ≠ .approved := by
    rcases hterm with h | h <;> simp [h]
  refine ⟨hguard, ?_, ?_, ?_, ?_, ?_, ?_⟩ <;>
    simp [approveHandler, disburseHandler, retireHandler, hguard, hst1,
      hst2, persistedAfter] <;>
    split_ifs <;> simp [persistedAfter]

/-- Witness for C2 at a concrete rejected advance. -/
theorem C2_terminal_witness :
    let a : Advance :=
      ⟨[], 1, 500, "travel reimbursement", "", 0, 7, .rejected, [], none,
        none, .medium, true, 0⟩
    a.canBeApprovedBy .manager = false ∧
    (∀ x, approveHandler 2 .manager .approved "" 3 a ≠ .ok x) ∧
    persistedAfter a (approveHandler 2 .manager .approved "" 3 a) = a ∧
    (∀ x, disburseHandler 2 .manager none none "" 3 a ≠ .ok x) ∧
    persistedAfter a (disburseHandler 2 .manager none none "" 3 a) = a ∧
    (∀ x, retireHandler 2 3 480 "" 3 a ≠ .ok x) ∧
    persistedAfter a (retireHandler 2 3 480 "" 3 a) = a :=
  C2_terminal_states_absorbing _ (Or.inl rfl) 2 .manager .approved "" 3
    none none "" 3 480 ""

/-- **C4, counterexample.** The canonical lifecycle is not executable end
to end: after manager approval, finance approval and disbursement the
advance has status `disbursed`, and the retirement endpoint — which
requires status `approved` (the `CashAdvance` variant's stage) — rejects
it, so the requester's retirement attempt fails instead of yielding
`retired`. -/
theorem C4_lifecycle_counterexample :
    lifecycleRun =
      .error (.badRequest "Only approved advances can be retired") := by
  rfl

/-- **C4, amended.** From a freshly created `pending` advance, manager
approval yields `manager_approved`, finance approval yields
`finance_approved`, finance disbursement yields `disbursed` with a
disbursement record; the retirement endpoint requires status `approved`,
so retiring the disbursed advance fails with the state-conflict error;
retirement by the requester succeeds exactly from status `approved`,
recording the totals, and a second retire attempt on the now-retired
advance fails with the same state-conflict error. -/
theorem C4_amended_lifecycle (uid mgrId finId : Nat) (amount : Rat)
    (purpose description : String) (erd : Nat) (prio : Option Priority)
    (now c1t c2t : Nat) (c1 c2 : String) (damt : Option Rat) (ref : String)
    (dt rd : Nat) (te : Rat) (eb : String) (rt : Nat) :
    let a0 := newAdvance uid amount purpose description erd prio now
    a0.status = .pending ∧
    ∃ a1 a2 a3,
      approveHandler mgrId .manager .approved c1 c1t a0 = .ok a1 ∧
      a1.status = .manager_approved ∧
      approveHandler finId .finance .approved c2 c2t a1 = .ok a2 ∧
      a2.status = .finance_approved ∧
      disburseHandler finId .finance damt (some .bank_transfer) ref dt a2 =
        .ok a3 ∧
      a3.status = .disbursed ∧
      a3.disbursement =
        some ⟨finId, dt, orAmount damt amount, .bank_transfer, ref⟩ ∧
      a3.requester = uid ∧
      retireHandler uid rd te eb rt a3 =
        .error (.badRequest "Only approved advances can be retired") ∧
      (∀ b : Advance, b.requester = uid → b.status = .approved →
        ∃ b', retireHandler uid rd te eb rt b = .ok b' ∧
          b'.status = .retired ∧
          b'.retirement = some ⟨rd, te, eb, rt⟩ ∧
          retireHandler uid rd te eb rt b' =
            .error (.badRequest "Only approved advances can be retired")) := by
  refine ⟨rfl, _, _, _, rfl, rfl, rfl, rfl, rfl, rfl, rfl, rfl, ?_, ?_⟩
  · simp [retireHandler, Advance.addApproval, newAdvance]
  intro b hb hst
  refine ⟨{ b with status := .retired, retirement := some ⟨rd, te, eb, rt⟩ },
    ?_, rfl, rfl, ?_⟩
  · simp [retireHandler, hb, hst]
  · simp [retireHandler, hb]

/-- Witness for C4 (amended): the concrete scenario of the spec,
including a successful retirement from the `approved` stage. -/
theorem C4_amended_witness :
    let a0 := newAdvance 1 500 "travel reimbursement" "" 7 none 0
    a0.status = .pending ∧
    ∃ a1 a2 a3,
      approveHandler 2 .manager .approved "" 1 a0 = .ok a1 ∧
      a1.status = .manager_approved ∧
      approveHandler 3 .finance .approved "" 2 a1 = .ok a2 ∧
      a2.status = .finance_approved ∧
      disburseHandler 3 .finance none (some .bank_transfer) "" 3 a2 =
        .ok a3 ∧
      a3.status = .disbursed ∧
      a3.disbursement = some ⟨3, 3, orAmount none 500, .bank_transfer, ""⟩ ∧
      a3.requester = 1 ∧
      retireHandler 1 4 480 "" 5 a3 =
        .error (.badRequest "Only approved advances can be retired") ∧
      (∀ b : Advance, b.requester = 1 → b.status = .approved →
        ∃ b', retireHandler 1 4 480 "" 5 b = .ok b' ∧
          b'.status = .retired ∧
          b'.retirement = some ⟨4, 480, "", 5⟩ ∧
          retireHandler 1 4 480 "" 5 b' =
            .error (.badRequest "Only approved advances can be retired")) :=
  C4_amended_lifecycle 1 2 3 500 "travel reimbursement" "" 7 none 0 1 2
    "" "" none "" 3 4 480 "" 5

theorem lexLt_irrefl (l : List Nat) : lexLt l l = false := by
  induction l with
  | nil => rfl
  | cons x xs ih => simp [lexLt, Nat.lt_irrefl, ih]

theorem lexLt_cons (x y : Nat) (xs ys : List Nat) :
    lexLt (x :: xs) (y :: ys) = true ↔
      x < y ∨ (x = y ∧ lexLt xs ys = true) := by
  simp only [lexLt]
  split_ifs with h1 h2
  · simp [h1]
  · simp only [Bool.false_eq_true, false_iff]
    rintro (h | ⟨h, _⟩) <;> omega
  · have hxy : x = y := by omega
    simp [hxy, Nat.lt_irrefl]

theorem lexLt_total (a b : List Nat) :
    lexLt a b = true ∨ a = b ∨ lexLt b a = true := by
  induction a generalizing b with
  | nil => cases b with
    | nil => simp
    | cons y ys => simp [lexLt]
  | cons x xs ih => cases b with
    | nil => simp [lexLt]
    | cons y ys =>
      rcases Nat.lt_trichotomy x y with h | h | h
      · exact Or.inl ((lexLt_cons _ _ _ _).mpr (Or.inl h))
      · subst h
        rcases ih ys with h' | h' | h'
        · exact Or.inl ((lexLt_cons _ _ _ _).mpr (Or.inr ⟨rfl, h'⟩))
        · exact Or.inr (Or.inl (by rw [h']))
        · exact Or.inr (Or.inr ((lexLt_cons _ _ _ _).mpr (Or.inr ⟨rfl, h'⟩)))
      · exact Or.inr (Or.inr ((lexLt_cons _ _ _ _).mpr (Or.inl h)))

theorem lexLt_trans (a : List Nat) : ∀ (b c : List Nat),
    lexLt a b = true → lexLt b c = true → lexLt a c = true := by
  induction a with
  | nil =>
    intro b c hab hbc
    cases b with
    | nil => exact hbc
    | cons y ys => cases c with
      | nil => simp [lexLt] at hbc
      | cons z zs => simp [lexLt]
  | cons x xs ih =>
    intro b c hab hbc
    cases b with
    | nil => simp [lexLt] at hab
    | cons y ys => cases c with
      | nil => simp [lexLt] at hbc
      | cons z zs =>
        rw [lexLt_cons] at hab hbc ⊢
        rcases hab with h1 | ⟨h1, h1'⟩ <;> rcases hbc with h2 | ⟨h2, h2'⟩
        · exact Or.inl (by omega)
        · exact Or.inl (by omega)
        · exact Or.inl (by omega)
        · exact Or.inr ⟨by omega, ih ys zs h1' h2'⟩

theorem lexLt_asymm (a b : List Nat) (h : lexLt a b = true) :
    lexLt b a = false := by
  by_contra hc
  have hba : lexLt b a = true := by
    cases hb : lexLt b a
    · exact absurd hb hc
    · rfl
  have := lexLt_trans a b a h hba
  simp [lexLt_irrefl] at this

theorem lexLt_neg_trans (a b c : List Nat) (hab : lexLt a b = false)
    (hbc : lexLt b c = false) : lexLt a c = false := by
  by_contra hc'
  have hac : lexLt a c = true := by
    cases hx : lexLt a c
    · exact absurd hx hc'
    · rfl
  rcases lexLt_total a b with h | h | h
  · simp [h] at hab
  · subst h; simp [hac] at hbc
  · have := lexLt_trans b a c h hac
    simp [this] at hbc

theorem lexLt_append_same (p u v : List Nat) :
    lexLt (p ++ u) (p ++ v) = lexLt u v := by
  induction p with
  | nil => rfl
  | cons x xs ih => simp [lexLt, Nat.lt_irrefl, ih]

theorem lexLt_pad4_iff (k1 k2 : Nat) (h1 : k1 ≤ 9999) (h2 : k2 ≤ 9999) :
    lexLt (pad4 k1) (pad4 k2) = true ↔ k1 < k2 := by
  simp only [pad4, lexLt_cons,
    show lexLt ([] : List Nat) [] = false from rfl]
  constructor
  · rintro (h | ⟨e3, h | ⟨e2, h | ⟨e1, h | ⟨e0, hf⟩⟩⟩⟩)
    · omega
    · omega
    · omega
    · omega
    · simp at hf
  · intro hlt
    rcases Nat.lt_trichotomy (k1 / 1000) (k2 / 1000) with h3 | h3 | h3
    · exact Or.inl (by omega)
    · rcases Nat.lt_trichotomy (k1 / 100 % 10) (k2 / 100 % 10) with hb | hb | hb
      · exact Or.inr ⟨by omega, Or.inl (by omega)⟩
      · rcases Nat.lt_trichotomy (k1 / 10 % 10) (k2 / 10 % 10) with hc | hc | hc
        · exact Or.inr ⟨by omega, Or.inr ⟨by omega, Or.inl (by omega)⟩⟩
        · exact Or.inr ⟨by omega, Or.inr ⟨by omega,
            Or.inr ⟨by omega, Or.inl (by omega)⟩⟩⟩
        · exact absurd hlt (by omega)
      · exact absurd hlt (by omega)
    · exact absurd hlt (by omega)

theorem pad4_inj (k1 k2 : Nat) (h1 : k1 ≤ 9999) (h2 : k2 ≤ 9999)
    (h : pad4 k1 = pad4 k2) : k1 = k2 := by
  simp only [pad4, List.cons.injEq, and_true] at h
  omega

theorem sliceLast4_append_pad4 (p : List Nat) (k : Nat) :
    sliceLast4 (p ++ pad4 k) = pad4 k := by
  have h4 : (pad4 k).length = 4 := rfl
  simp [sliceLast4, List.length_append, h4, List.drop_left]

theorem parseIntDigits_pad4 (k : Nat) (h : k ≤ 9999) :
    parseIntDigits (pad4 k) = k := by
  simp only [parseIntDigits, pad4, List.foldl]
  omega

theorem isPrefixOf_append_self (p t : List Nat) :
    p.isPrefixOf (p ++ t) = true := by
  induction p with
  | nil => simp [List.isPrefixOf]
  | cons x xs ih => simp [List.isPrefixOf, ih]

theorem foldl_pickLater_some_ne_none (t : List Advance) : ∀ (b : Advance),
    t.foldl pickLater (some b) ≠ none := by
  induction t with
  | nil => intro b h; simp at h
  | cons c t' ih =>
    intro b h
    simp only [List.foldl_cons, pickLater] at h
    split at h <;> exact ih _ h

theorem foldl_pickLater_mem (t : List Advance) : ∀ (b m : Advance),
    t.foldl pickLater (some b) = some m → m = b ∨ m ∈ t := by
  induction t with
  | nil =>
    intro b m h
    simp at h
    exact Or.inl h.symm
  | cons c t' ih =>
    intro b m h
    simp only [List.foldl_cons, pickLater] at h
    split at h
    · rcases ih _ _ h with h' | h'
      · exact Or.inr (by simp [h'])
      · exact Or.inr (List.mem_cons_of_mem _ h')
    · rcases ih _ _ h with h' | h'
      · exact Or.inl h'
      · exact Or.inr (List.mem_cons_of_mem _ h')

theorem foldl_pickLater_ub (t : List Advance) : ∀ (b m : Advance),
    t.foldl pickLater (some b) = some m →
    lexLt m.requestNumber b.requestNumber = false ∧
    ∀ x ∈ t, lexLt m.requestNumber x.requestNumber = false := by
  induction t with
  | nil =>
    intro b m h
    simp at h
    subst h
    exact ⟨lexLt_irrefl _, by simp⟩
  | cons c t' ih =>
    intro b m h
    simp only [List.foldl_cons, pickLater] at h
    split_ifs at h with hbc
    · obtain ⟨h1, h2⟩ := ih _ _ h
      have hcb := lexLt_asymm _ _ hbc
      refine ⟨lexLt_neg_trans _ _ _ h1 hcb, ?_⟩
      intro x hx
      rcases List.mem_cons.mp hx with rfl | hx'
      · exact h1
      · exact h2 x hx'
    · obtain ⟨h1, h2⟩ := ih _ _ h
      have hbc' : lexLt b.requestNumber c.requestNumber = false := by
        simpa using hbc
      refine ⟨h1, ?_⟩
      intro x hx
      rcases List.mem_cons.mp hx with rfl | hx'
      · exact lexLt_neg_trans _ _ _ h1 hbc'
      · exact h2 x hx'

theorem findLastAdvance_eq_none (p : List Nat) (store : List Advance)
    (h : findLastAdvance p store = none) :
    ∀ a ∈ store, p.isPrefixOf a.requestNumber = false := by
  intro a ha
  by_contra hc
  have hp : p.isPrefixOf a.requestNumber = true := by
    cases hx : p.isPrefixOf a.requestNumber
    · exact absurd hx hc
    · rfl
  unfold findLastAdvance at h
  cases hf : store.filter (fun x => p.isPrefixOf x.requestNumber) with
  | nil =>
    have haf : a ∈ store.filter (fun x => p.isPrefixOf x.requestNumber) :=
      List.mem_filter.mpr ⟨ha, hp⟩
    rw [hf] at haf
    simp at haf
  | cons c t =>
    rw [hf] at h
    simp only [List.foldl_cons, pickLater] at h
    exact foldl_pickLater_some_ne_none t c h

theorem findLastAdvance_eq_some (p : List Nat) (store : List Advance)
    (m : Advance) (h : findLastAdvance p store = some m) :
    m ∈ store ∧ p.isPrefixOf m.requestNumber = true ∧
    ∀ x ∈ store, p.isPrefixOf x.requestNumber = true →
      lexLt m.requestNumber x.requestNumber = false := by
  unfold findLastAdvance at h
  cases hf : store.filter (fun a => p.isPrefixOf a.requestNumber) with
  | nil =>
    rw [hf] at h
    simp at h
  | cons c t =>
    rw [hf] at h
    simp only [List.foldl_cons, pickLater] at h
    have hmem : m ∈ c :: t := by
      rcases foldl_pickLater_mem t c m h with h' | h'
      · simp [h']
      · exact List.mem_cons_of_mem _ h'
    have hub := foldl_pickLater_ub t c m h
    have hmem' : m ∈ store.filter (fun a => p.isPrefixOf a.requestNumber) := by
      rw [hf]; exact hmem
    refine ⟨(List.mem_filter.mp hmem').1, (List.mem_filter.mp hmem').2, ?_⟩
    intro x hx hpx
    have hxf : x ∈ store.filter (fun a => p.isPrefixOf a.requestNumber) :=
      List.mem_filter.mpr ⟨hx, hpx⟩
    rw [hf] at hxf
    rcases List.mem_cons.mp hxf with rfl | hx'
    · exact hub.1
    · exact hub.2 x hx'

/-- **C5.** For every valid creation input, the saved advance has status
`pending`, its amount is the input amount, and its request number is
`ADV<year><month><seq>` with a 4-digit sequence that is strictly greater
than — hence distinct from — every sequence already present for that
month (the hypothesis states that the existing month numbers are
well-formed 4-digit numbers, the regime in which `padStart(4, "0")` and
`slice(-4)` round-trip). -/
theorem C5_create_pending_unique_number (year month : Nat)
    (store : List Advance) (uid : Nat) (amount : Rat)
    (purpose description : String) (erd : Nat) (prio : Option Priority)
    (now : Nat)
    (hvalid : validAdvanceRequest amount purpose description erd now = true)
    (hstore : ∀ b ∈ store,
      (advTag year month).isPrefixOf b.requestNumber = true →
      ∃ k, 1 ≤ k ∧ k ≤ 9998 ∧
        b.requestNumber = advTag year month ++ pad4 k) :
    (preSave year month store
      (newAdvance uid amount purpose description erd prio now)).status =
        .pending ∧
    (preSave year month store
      (newAdvance uid amount purpose description erd prio now)).amount =
        amount ∧
    ∃ s, 1 ≤ s ∧ s ≤ 9999 ∧
      (preSave year month store
        (newAdvance uid amount purpose description erd prio now)).requestNumber =
          advTag year month ++ pad4 s ∧
      ∀ b ∈ store, ∀ k, k ≤ 9999 →
        b.requestNumber = advTag year month ++ pad4 k → k < s := by
  refine ⟨by simp [preSave, newAdvance], by simp [preSave, newAdvance], ?_⟩
  cases hfind : findLastAdvance (advTag year month) store with
  | none =>
    refine ⟨1, le_refl 1, by omega, by simp [preSave, newAdvance, hfind], ?_⟩
    intro b hb k hk hbrn
    have hnone := findLastAdvance_eq_none _ _ hfind b hb
    rw [hbrn, isPrefixOf_append_self] at hnone
    cases hnone
  | some last =>
    obtain ⟨hmem, hpre, hub⟩ := findLastAdvance_eq_some _ _ _ hfind
    obtain ⟨km, hkm1, hkm2, hrn⟩ := hstore last hmem hpre
    have hseq : parseIntDigits (sliceLast4 last.requestNumber) = km := by
      rw [hrn, sliceLast4_append_pad4, parseIntDigits_pad4 km (by omega)]
    refine ⟨km + 1, by omega, by omega,
      by simp [preSave, newAdvance, hfind, hseq], ?_⟩
    intro b hb k hk hbrn
    have hpb : (advTag year month).isPrefixOf b.requestNumber = true := by
      rw [hbrn]; exact isPrefixOf_append_self _ _
    have hnl := hub b hb hpb
    by_contra hc
    have hlast : lexLt last.requestNumber b.requestNumber = true := by
      rw [hrn, hbrn, lexLt_append_same]
      exact (lexLt_pad4_iff km k (by omega) hk).mpr (by omega)
    rw [hlast] at hnl
    cases hnl

/-- Witness for C5: the spec's example creation into an empty month. -/
theorem C5_create_witness :
    (preSave 2025 7 []
      (newAdvance 1 500 "travel reimbursement" "" 7 none 0)).status =
        .pending ∧
    (preSave 2025 7 []
      (newAdvance 1 500 "travel reimbursement" "" 7 none 0)).amount = 500 ∧
    ∃ s, 1 ≤ s ∧ s ≤ 9999 ∧
      (preSave 2025 7 []
        (newAdvance 1 500 "travel reimbursement" "" 7 none 0)).requestNumber =
          advTag 2025 7 ++ pad4 s ∧
      ∀ b ∈ ([] : List Advance), ∀ k, k ≤ 9999 →
        b.requestNumber = advTag 2025 7 ++ pad4 k → k < s :=
  C5_create_pending_unique_number 2025 7 [] 1 500 "travel reimbursement"
    "" 7 none 0 (by decide) (by simp)

/-- **C9, counterexample.** A concurrent creation races the hook: the
write-time state already holds `ADV202507` sequence 1, which the hook
(reading the earlier empty snapshot) also generates.  The creation does
not retry: the duplicate-key violation is surfaced immediately as the
generic 500 response — not as a conflict error after exhausted retries —
even though a single re-read (second conjunct) would have produced
sequence 2 and succeeded. -/
theorem C9_no_retry_counterexample :
    (createAdvanceHandler 2025 7 []
      [{ newAdvance 2 100 "office supplies restock" "" 7 none 0 with
          requestNumber := advTag 2025 7 ++ pad4 1 }]
      1 500 "travel reimbursement" "" 7 none 0 =
      .error (.serverError "Error creating cash advance request")) ∧
    (createAdvanceHandler 2025 7
      [{ newAdvance 2 100 "office supplies restock" "" 7 none 0 with
          requestNumber := advTag 2025 7 ++ pad4 1 }]
      [{ newAdvance 2 100 "office supplies restock" "" 7 none 0 with
          requestNumber := advTag 2025 7 ++ pad4 1 }]
      1 500 "travel reimbursement" "" 7 none 0 =
      .ok (preSave 2025 7
        [{ newAdvance 2 100 "office supplies restock" "" 7 none 0 with
            requestNumber := advTag 2025 7 ++ pad4 1 }]
        (newAdvance 1 500 "travel reimbursement" "" 7 none 0))) := by
  constructor <;> rfl

/-- **C9, amended.** Creation performs a single save attempt: when the
generated request number collides with one concurrently present at write
time, the duplicate-key violation is surfaced immediately as the generic
500 creation error (no retry, no re-read, no conflict-specific error);
otherwise the insert succeeds with the generated document. -/
theorem C9_single_attempt (year month : Nat)
    (storeAtRead storeAtWrite : List Advance) (uid : Nat) (amount : Rat)
    (purpose description : String) (erd : Nat) (prio : Option Priority)
    (now : Nat) :
    (storeAtWrite.any (fun b => b.requestNumber ==
        (preSave year month storeAtRead
          (newAdvance uid amount purpose description erd prio
            now)).requestNumber) = true →
      createAdvanceHandler year month storeAtRead storeAtWrite uid amount
        purpose description erd prio now =
        .error (.serverError "Error creating cash advance request")) ∧
    (storeAtWrite.any (fun b => b.requestNumber ==
        (preSave year month storeAtRead
          (newAdvance uid amount purpose description erd prio
            now)).requestNumber) = false →
      createAdvanceHandler year month storeAtRead storeAtWrite uid amount
        purpose description erd prio now =
        .ok (preSave year month storeAtRead
          (newAdvance uid amount purpose description erd prio now))) := by
  constructor <;> intro h <;> simp [createAdvanceHandler, saveDoc, h]

/-- Witness for C9 (amended), at the counterexample's conflicting
snapshots. -/
theorem C9_single_attempt_witness :
    createAdvanceHandler 2025 7 []
      [{ newAdvance 2 100 "office supplies restock" "" 7 none 0 with
          requestNumber := advTag 2025 7 ++ pad4 1 }]
      1 500 "travel reimbursement" "" 7 none 0 =
      .error (.serverError "Error creating cash advance request") :=
  (C9_single_attempt 2025 7 []
    [{ newAdvance 2 100 "office supplies restock" "" 7 none 0 with
        requestNumber := advTag 2025 7 ++ pad4 1 }]
    1 500 "travel reimbursement" "" 7 none 0).1 (by rfl)

theorem mem_of_mem_pageSlice {α : Type} {a : α} {L p : Nat} {l : List α}
    (h : a ∈ pageSlice L p l) : a ∈ l :=
  List.drop_subset _ _ (List.take_subset _ _ h)

/-- **C7.** A staff actor's `GET /api/advances` result only ever
contains advances whose requester is the acting user, for every
combination of page, limit, status, priority, search and date-range
parameters; and `GET /api/advances/my-requests` is requester-scoped for
every actor.  No query parameter can widen the scope. -/
theorem C7_staff_list_scoped (u : User) (q : AdvListQuery)
    (store : List Advance) (users : List User)
    (rmatch : String → String → Bool) (hu : u.role = .staff) :
    (∀ a ∈ listAdvances u q store users rmatch, a.requester = u.id) ∧
    (∀ (userId : Nat) (st : Option Status) (page limitN : Nat)
      (store2 : List Advance), ∀ a ∈ myRequests userId st page limitN store2,
        a.requester = userId) := by
  constructor
  · intro a ha
    have hfil : matchesFilter (buildFilter u q) a = true := by
      unfold listAdvances at ha
      cases hs : q.search with
      | none =>
        rw [hs] at ha
        exact (List.mem_filter.mp
          (List.mem_mergeSort.mp (mem_of_mem_pageSlice ha))).2
      | some s =>
        rw [hs] at ha
        have h3 := (List.mem_filter.mp
          (List.mem_mergeSort.mp (mem_of_mem_pageSlice ha))).2
        exact (Bool.and_eq_true _ _ |>.mp h3).1
    unfold matchesFilter buildFilter at hfil
    rw [hu] at hfil
    simp only [reduceIte, Bool.and_eq_true, beq_iff_eq] at hfil
    exact hfil.1.1.1.1.2
  · intro userId st page limitN store2 a ha
    have hfil := (List.mem_filter.mp
      (List.mem_mergeSort.mp (mem_of_mem_pageSlice ha))).2
    simp only [Bool.and_eq_true, beq_iff_eq] at hfil
    exact hfil.1

/-- Witness for C7 at a concrete staff user and store. -/
theorem C7_staff_list_witness :
    let u : User :=
      ⟨1, "Ada", "Obi", "a@b.co", "EMP1", "Sales", "Analyst", .staff, true⟩
    let q : AdvListQuery := ⟨1, 10, none, none, none, none, none⟩
    (∀ a ∈ listAdvances u q [] [] (fun _ _ => true), a.requester = u.id) ∧
    (∀ (userId : Nat) (st : Option Status) (page limitN : Nat)
      (store2 : List Advance), ∀ a ∈ myRequests userId st page limitN store2,
        a.requester = userId) :=
  C7_staff_list_scoped _ _ [] [] (fun _ _ => true) rfl

theorem flatMap_pageSlice {α : Type} (l : List α) (L : Nat) (P : Nat) :
    (List.range P).flatMap (fun i => pageSlice L (i + 1) l) =
      l.take (P * L) := by
  induction P with
  | zero => simp
  | succ n ih =>
    rw [List.range_succ, List.flatMap_append, ih]
    simp only [List.flatMap_cons, List.flatMap_nil, List.append_nil,
      pageSlice, Nat.add_sub_cancel]
    rw [Nat.succ_mul, List.take_add]

theorem ceilDiv_mul_ge (N L : Nat) (hL : 1 ≤ L) : N ≤ ceilDiv N L * L := by
  have key : ∀ A B : Nat, A + B = N + L - 1 → B < L → N ≤ A := by
    intro A B h1 h2
    omega
  exact key _ _
    (by rw [ceilDiv, Nat.mul_comm]; exact Nat.div_add_mod _ _)
    (Nat.mod_lt _ (by omega))

theorem ceilDiv_eq_ceil (N L : Nat) (hL : 1 ≤ L) :
    ceilDiv N L = ⌈(N : ℚ) / (L : ℚ)⌉₊ := by
  have hL0 : (0 : ℚ) < (L : ℚ) := by exact_mod_cast hL
  apply le_antisymm
  · have hx := Nat.le_ceil ((N : ℚ) / (L : ℚ))
    rw [div_le_iff₀ hL0] at hx
    have hNc : N ≤ ⌈(N : ℚ) / (L : ℚ)⌉₊ * L := by exact_mod_cast hx
    have key : ∀ X : Nat, N ≤ X → N + L - 1 ≤ X + (L - 1) := by
      intro X h
      omega
    show (N + L - 1) / L ≤ ⌈(N : ℚ) / (L : ℚ)⌉₊
    rw [Nat.div_le_iff_le_mul_add_pred (by omega)]
    rw [Nat.mul_comm] at hNc
    exact key _ hNc
  · rw [Nat.ceil_le, div_le_iff₀ hL0]
    exact_mod_cast ceilDiv_mul_ge N L hL

/-- **C8.** For a dataset of `N` matching records and page size `L ≥ 1`:
the reported `totalPages` is the mathematical ceiling of `N / L`;
concatenating pages `1 .. totalPages` of the route's skip/take slicing
reproduces the dataset exactly (each record exactly once), so the
per-page counts sum to `N`; `hasNext` holds exactly on pages strictly
before `totalPages`; and `hasPrev` holds exactly on pages after 1. -/
theorem C8_pagination_invariant {α : Type} (l : List α) (L : Nat)
    (hL : 1 ≤ L) :
    (∀ p, (mkPagination p L l.length).totalPages =
      ⌈(l.length : ℚ) / (L : ℚ)⌉₊) ∧
    (List.range (ceilDiv l.length L)).flatMap
      (fun i => pageSlice L (i + 1) l) = l ∧
    ((List.range (ceilDiv l.length L)).map
      (fun i => (pageSlice L (i + 1) l).length)).sum = l.length ∧
    (∀ p, (mkPagination p L l.length).hasNext = true ↔
      p < ceilDiv l.length L) ∧
    (∀ p, (mkPagination p L l.length).hasPrev = true ↔ 1 < p) := by
  have hjoin : (List.range (ceilDiv l.length L)).flatMap
      (fun i => pageSlice L (i + 1) l) = l := by
    rw [flatMap_pageSlice]
    exact List.take_of_length_le (ceilDiv_mul_ge _ _ hL)
  refine ⟨fun p => ceilDiv_eq_ceil _ _ hL, hjoin, ?_,
    fun p => by simp [mkPagination], fun p => by simp [mkPagination]⟩
  have hlen := congrArg List.length hjoin
  rw [List.length_flatMap] at hlen
  simpa [Function.comp] using hlen

/-- Witness for C8: three records, page size two. -/
theorem C8_pagination_witness :
    (∀ p, (mkPagination p 2 ([0, 1, 2] : List Nat).length).totalPages =
      ⌈(([0, 1, 2] : List Nat).length : ℚ) / ((2 : Nat) : ℚ)⌉₊) ∧
    (List.range (ceilDiv ([0, 1, 2] : List Nat).length 2)).flatMap
      (fun i => pageSlice 2 (i + 1) ([0, 1, 2] : List Nat)) = [0, 1, 2] ∧
    ((List.range (ceilDiv ([0, 1, 2] : List Nat).length 2)).map
      (fun i => (pageSlice 2 (i + 1) ([0, 1, 2] : List Nat)).length)).sum =
      ([0, 1, 2] : List Nat).length ∧
    (∀ p, (mkPagination p 2 ([0, 1, 2] : List Nat).length).hasNext = true ↔
      p < ceilDiv ([0, 1, 2] : List Nat).length 2) ∧
    (∀ p, (mkPagination p 2 ([0, 1, 2] : List Nat).length).hasPrev = true ↔
      1 < p) :=
  C8_pagination_invariant [0, 1, 2] 2 (by decide)
